import Mathlib

/-! Verification development for the LiziEngine vector-field compute core
(src/compute/vector_field.py and src/plugins/marker_system.py).

The Python sources are embedded shallowly.  Grids of float 2-vectors become
total functions from integer indices to pairs of scalars: pairs of rationals
(exact arithmetic, fully computable) for the stencil / divergence / centre
detection layer, and pairs of reals for the layers whose source computes
square roots whose values flow into the result (patterns and markers).  The
two square-root comparisons inside find_vector_centers are encoded by their
exact algebraic equivalents over the rationals; the lemmas sqrtLtQ_iff and
magGtTenth_iff prove the encodings equivalent to the Real.sqrt comparisons. -/

namespace LiziEngine

/-- A dense h×w grid of 2-component vectors, row-major (y, x) indexing,
mirroring a numpy array of shape (h, w, 2).  The carrier function is total;
every operation below only reads indices it has checked (or clamped) itself,
matching the bounds behaviour of the Python source. -/
structure Grid (α : Type) where
  h : ℕ
  w : ℕ
  v : ℤ → ℤ → α × α

/-- Configuration snapshot read through config_manager on every call
(keys vector_field.vector_self_weight, vector_field.vector_neighbor_weight,
vector_field.enable_vector_average, vector_field.enable_vector_normalization,
vector_field.include_self). -/
structure Config where
  selfWeight : ℚ
  neighborWeight : ℚ
  enableAverage : Bool
  enableNormalization : Bool
  includeSelf : Bool

/-- In-bounds test 0 ≤ x < w and 0 ≤ y < h used by the source before every
direct read. -/
def inB {α : Type} (g : Grid α) (y x : ℤ) : Prop :=
  0 ≤ y ∧ y < (g.h : ℤ) ∧ 0 ≤ x ∧ x < (g.w : ℤ)

instance inB.inst {α : Type} (g : Grid α) (y x : ℤ) : Decidable (inB g y x) :=
  inferInstanceAs (Decidable (0 ≤ y ∧ y < (g.h : ℤ) ∧ 0 ≤ x ∧ x < (g.w : ℤ)))

/-- Zero-padded read, as produced by np.pad(grid, ((1,1),(1,1),(0,0)),
mode=constant) in update_grid_with_adjacent_sum: an out-of-grid neighbour
contributes the zero vector. -/
def padV (g : Grid ℚ) (y x : ℤ) : ℚ × ℚ :=
  if inB g y x then g.v y x else (0, 0)

/-- x-component of the accumulator of sum_adjacent_vectors
(vector_field.py lines 36-54): the self term (guarded by include_self and an
in-bounds check) followed by the loop over the neighbour offsets
(0,-1), (0,1), (-1,0), (1,0), each guarded by its own in-bounds check; the
loop is written out as the sum of its four iterations. -/
def adjacentRawSumX (cfg : Config) (g : Grid ℚ) (incl : Bool) (x y : ℤ) : ℚ :=
  (if incl ∧ inB g y x then cfg.selfWeight * (g.v y x).1 else 0)
  + (if inB g (y - 1) x then cfg.neighborWeight * (g.v (y - 1) x).1 else 0)
  + (if inB g (y + 1) x then cfg.neighborWeight * (g.v (y + 1) x).1 else 0)
  + (if inB g y (x - 1) then cfg.neighborWeight * (g.v y (x - 1)).1 else 0)
  + (if inB g y (x + 1) then cfg.neighborWeight * (g.v y (x + 1)).1 else 0)

/-- y-component of the accumulator of sum_adjacent_vectors. -/
def adjacentRawSumY (cfg : Config) (g : Grid ℚ) (incl : Bool) (x y : ℤ) : ℚ :=
  (if incl ∧ inB g y x then cfg.selfWeight * (g.v y x).2 else 0)
  + (if inB g (y - 1) x then cfg.neighborWeight * (g.v (y - 1) x).2 else 0)
  + (if inB g (y + 1) x then cfg.neighborWeight * (g.v (y + 1) x).2 else 0)
  + (if inB g y (x - 1) then cfg.neighborWeight * (g.v y (x - 1)).2 else 0)
  + (if inB g y (x + 1) then cfg.neighborWeight * (g.v y (x + 1)).2 else 0)

/-- The counter `count` of sum_adjacent_vectors: one for the self term when it
is taken, plus one per in-bounds neighbour. -/
def adjacentCount (g : Grid ℚ) (incl : Bool) (x y : ℤ) : ℕ :=
  (if incl ∧ inB g y x then 1 else 0)
  + (if inB g (y - 1) x then 1 else 0)
  + (if inB g (y + 1) x then 1 else 0)
  + (if inB g y (x - 1) then 1 else 0)
  + (if inB g y (x + 1) then 1 else 0)

/-- sum_adjacent_vectors (vector_field.py lines 15-61) on a valid grid.
include_self = none means the argument was omitted and the configured default
is used.  When enable_average is set and at least one term was accumulated,
the sums are divided by the count. -/
def sumAdjacentVectors (cfg : Config) (g : Grid ℚ) (x y : ℤ)
    (includeSelfArg : Option Bool) : ℚ × ℚ :=
  let incl := includeSelfArg.getD cfg.includeSelf
  let sx := adjacentRawSumX cfg g incl x y
  let sy := adjacentRawSumY cfg g incl x y
  let c := adjacentCount g incl x y
  if cfg.enableAverage ∧ 0 < c then (sx / c, sy / c) else (sx, sy)

/-- x-component of the vectorised neighbour sum of
update_grid_with_adjacent_sum (vector_field.py lines 90-105):
up = grid[y+1, x], down = grid[y-1, x], left = grid[y, x+1],
right = grid[y, x-1] (the names are the ones used for the numpy slices),
each weighted by neighbor_weight with conceptual zero-padding, plus the
self term when include_self. -/
def updateRawX (cfg : Config) (g : Grid ℚ) (incl : Bool) (y x : ℤ) : ℚ :=
  cfg.neighborWeight * (padV g (y + 1) x).1
  + cfg.neighborWeight * (padV g (y - 1) x).1
  + cfg.neighborWeight * (padV g y (x + 1)).1
  + cfg.neighborWeight * (padV g y (x - 1)).1
  + (if incl then cfg.selfWeight * (g.v y x).1 else 0)

/-- y-component of the vectorised neighbour sum of
update_grid_with_adjacent_sum. -/
def updateRawY (cfg : Config) (g : Grid ℚ) (incl : Bool) (y x : ℤ) : ℚ :=
  cfg.neighborWeight * (padV g (y + 1) x).2
  + cfg.neighborWeight * (padV g (y - 1) x).2
  + cfg.neighborWeight * (padV g y (x + 1)).2
  + cfg.neighborWeight * (padV g y (x - 1)).2
  + (if incl then cfg.selfWeight * (g.v y x).2 else 0)

/-- The analytic neighbour/self count built (but never used: the division by
it is commented out in the source) by the enable_average branch of
update_grid_with_adjacent_sum, vector_field.py lines 108-120: 4 neighbours,
minus 1 per grid edge the cell touches, plus 1 if include_self. -/
def analyticNeighborCount (g : Grid ℚ) (incl : Bool) (y x : ℤ) : ℚ :=
  4 - (if y = 0 then 1 else 0) - (if y = (g.h : ℤ) - 1 then 1 else 0)
    - (if x = 0 then 1 else 0) - (if x = (g.w : ℤ) - 1 then 1 else 0)
    + (if incl then 1 else 0)

/-- The analytic per-cell weight sum of the enable_normalization branch of
update_grid_with_adjacent_sum (vector_field.py lines 126-141):
4*neighbor_weight, minus neighbor_weight per grid edge the cell touches,
plus self_weight if include_self, floored at 1/10 against division by
zero. -/
def weightSumNorm (cfg : Config) (g : Grid ℚ) (incl : Bool) (y x : ℤ) : ℚ :=
  max (4 * cfg.neighborWeight
        - (if y = 0 then cfg.neighborWeight else 0)
        - (if y = (g.h : ℤ) - 1 then cfg.neighborWeight else 0)
        - (if x = 0 then cfg.neighborWeight else 0)
        - (if x = (g.w : ℤ) - 1 then cfg.neighborWeight else 0)
        + (if incl then cfg.selfWeight else 0))
      (1 / 10)

/-- update_grid_with_adjacent_sum (vector_field.py lines 63-148) on a valid
grid.  The enable_average branch computes analyticNeighborCount but the
division by it is commented out in the source, so the branch leaves the
accumulated sum unchanged; the enable_normalization branch (tested only when
enable_average is off, `elif`) divides by weightSumNorm.  Finally
`grid[:] = result` overwrites every in-bounds cell. -/
def updateGridWithAdjacentSum (cfg : Config) (g : Grid ℚ)
    (includeSelfArg : Option Bool) : Grid ℚ :=
  let incl := includeSelfArg.getD cfg.includeSelf
  Grid.mk g.h g.w (fun y x =>
    if inB g y x then
      if cfg.enableAverage then
        (updateRawX cfg g incl y x, updateRawY cfg g incl y x)
      else if cfg.enableNormalization then
        (updateRawX cfg g incl y x / weightSumNorm cfg g incl y x,
         updateRawY cfg g incl y x / weightSumNorm cfg g incl y x)
      else
        (updateRawX cfg g incl y x, updateRawY cfg g incl y x)
    else g.v y x)

/-- The error conditions numpy raises for the operations modelled here. -/
inductive PyError : Type
  | valueError : PyError
  | typeError : PyError
deriving DecidableEq

/-- create_vector_grid (vector_field.py lines 150-156):
np.zeros((height, width, 2)) raises ValueError exactly when a requested
dimension is negative; a zero dimension succeeds and yields an empty grid.
The `if default != (0,0)` initialisation fills every cell with the default
either way. -/
def createVectorGrid (width height : ℤ) (default : ℚ × ℚ) :
    Except PyError (Grid ℚ) :=
  if height < 0 ∨ width < 0 then Except.error PyError.valueError
  else Except.ok (Grid.mk height.toNat width.toNat (fun _ _ => default))

/-- A Python grid argument as received by the public operations: None, a
value that is not a numpy.ndarray, or a valid array. -/
inductive PyGrid : Type
  | none : PyGrid
  | notArray : PyGrid
  | array : Grid ℚ → PyGrid

/-- The discrete divergence field built inside find_vector_centers
(vector_field.py lines 275-284).  The five numpy slice assignments write
pairwise disjoint regions whenever h ≥ 2 and w ≥ 2, and later passes would
overwrite earlier ones, so the function tests the passes in reverse order of
execution: right column, left column, bottom row, top row, interior; cells
written by no pass (the four corners) keep the np.zeros initial value. -/
def divField (g : Grid ℚ) (y x : ℤ) : ℚ :=
  let h : ℤ := g.h
  let w : ℤ := g.w
  let vx := fun (yy xx : ℤ) => (g.v yy xx).1
  let vy := fun (yy xx : ℤ) => (g.v yy xx).2
  if x = w - 1 ∧ 1 ≤ y ∧ y ≤ h - 2 then
    (vx y (w - 1) - vx y (w - 2)) + (vy (y + 1) (w - 1) - vy (y - 1) (w - 1)) / 2
  else if x = 0 ∧ 1 ≤ y ∧ y ≤ h - 2 then
    (vx y 1 - vx y 0) + (vy (y + 1) 0 - vy (y - 1) 0) / 2
  else if y = h - 1 ∧ 1 ≤ x ∧ x ≤ w - 2 then
    (vx (h - 1) (x + 1) - vx (h - 1) (x - 1)) / 2 + (vy (h - 1) x - vy (h - 2) x)
  else if y = 0 ∧ 1 ≤ x ∧ x ≤ w - 2 then
    (vx 0 (x + 1) - vx 0 (x - 1)) / 2 + (vy 1 x - vy 0 x)
  else if 1 ≤ y ∧ y ≤ h - 2 ∧ 1 ≤ x ∧ x ≤ w - 2 then
    (vx y (x + 1) - vx y (x - 1)) / 2 + (vy (y + 1) x - vy (y - 1) x) / 2
  else 0

/-- The cells of the grid enumerated in row-major order, as (y, x) pairs:
the iteration order of np.where on a 2-d array. -/
def cellsRowMajor (g : Grid ℚ) : List (ℤ × ℤ) :=
  (List.range g.h).flatMap (fun y => (List.range g.w).map (fun x => ((y : ℤ), (x : ℤ))))

/-- np.max(div): the divergence maximum over all cells (the grid is required
non-empty by the callers proved about; folding from cell (0,0) over every
cell computes the maximum). -/
def maxDiv (g : Grid ℚ) : ℚ :=
  (cellsRowMajor g).foldl (fun a p => max a (divField g p.1 p.2)) (divField g 0 0)

/-- np.min(div). -/
def minDiv (g : Grid ℚ) : ℚ :=
  (cellsRowMajor g).foldl (fun a p => min a (divField g p.1 p.2)) (divField g 0 0)

/-- Squared vector magnitude at cell (y, x); the source compares
magnitude = sqrt(vx^2 + vy^2) against 0.1. -/
def magSq (g : Grid ℚ) (y x : ℤ) : ℚ :=
  (g.v y x).1 ^ 2 + (g.v y x).2 ^ 2

/-- Exact encoding over ℚ of the comparison sqrt d2 < md used by the
min-distance test in find_vector_centers (d2 is a sum of squares, hence
nonnegative): sqrt d2 < md holds iff md is positive and d2 < md^2.
See sqrtLtQ_iff below for the proof of equivalence with Real.sqrt. -/
abbrev sqrtLtQ (d2 md : ℚ) : Prop :=
  0 < md ∧ d2 < md ^ 2

/-- Squared Euclidean distance between two integer points. -/
def dist2 (a b : ℤ × ℤ) : ℤ :=
  (a.1 - b.1) ^ 2 + (a.2 - b.2) ^ 2

/-- One iteration of the greedy acceptance loop of find_vector_centers
(vector_field.py lines 294-305 and 310-321): p = (y, x) is the candidate
cell from the row-major scan; it is appended (as (x, y)) to the accepted
centres when its vector magnitude exceeds 0.1 (encoded squared:
magSq > 1/100) and its Euclidean distance to every already accepted centre
is not below min_distance (encoded by sqrtLtQ). -/
def centersStep (g : Grid ℚ) (md : ℚ) (cs : List (ℤ × ℤ)) (p : ℤ × ℤ) :
    List (ℤ × ℤ) :=
  if 1 / 100 < magSq g p.1 p.2
      ∧ ∀ c ∈ cs, ¬ sqrtLtQ ((dist2 (p.2, p.1) c : ℤ) : ℚ) md then
    cs ++ [(p.2, p.1)]
  else cs

/-- Invariant of the greedy acceptance loop: every two distinct accepted
centres are at squared distance at least md^2 (trivial when md ≤ 0). -/
def sepOK (md : ℚ) (l : List (ℤ × ℤ)) : Prop :=
  ∀ a ∈ l, ∀ b ∈ l, a ≠ b → md ≤ 0 ∨ md ^ 2 ≤ ((dist2 a b : ℤ) : ℚ)

/-- Invariant of the greedy acceptance loop: every accepted centre (x, y)
has squared vector magnitude above 1/100 at its cell (y, x). -/
def magOK (g : Grid ℚ) (l : List (ℤ × ℤ)) : Prop :=
  ∀ c ∈ l, 1 / 100 < magSq g c.2 c.1

/-- The list of accepted "source" centres: the state of the `centers` list
after the first (divergent) pass of find_vector_centers. -/
def vectorCentersSources (g : Grid ℚ) (threshold md : ℚ) : List (ℤ × ℤ) :=
  if threshold < maxDiv g then
    ((cellsRowMajor g).filter
        (fun p => decide (maxDiv g * threshold < divField g p.1 p.2))).foldl
      (centersStep g md) []
  else []

/-- find_vector_centers (vector_field.py lines 248-323) on a valid grid:
the sink pass continues accumulating into the same `centers` list that the
source pass produced, so sink candidates are also deduplicated against the
sources. -/
def findVectorCenters (g : Grid ℚ) (threshold md : ℚ) : List (ℤ × ℤ) :=
  let src := vectorCentersSources g threshold md
  if minDiv g < -threshold then
    ((cellsRowMajor g).filter
        (fun p => decide (divField g p.1 p.2 < minDiv g * threshold))).foldl
      (centersStep g md) src
  else src

/-- find_vector_centers as called with a raw Python argument
(vector_field.py lines 260-261): None or a non-array returns [] rather than
raising. -/
def findVectorCentersPy (a : PyGrid) (threshold md : ℚ) : List (ℤ × ℤ) :=
  match a with
  | PyGrid.none => []
  | PyGrid.notArray => []
  | PyGrid.array g => findVectorCenters g threshold md

/-- update_grid_with_adjacent_sum as called with a raw Python argument
(vector_field.py lines 72-73): None or a non-array is returned unchanged
rather than raising. -/
def updateGridPy (cfg : Config) (a : PyGrid) (includeSelfArg : Option Bool) :
    PyGrid :=
  match a with
  | PyGrid.none => PyGrid.none
  | PyGrid.notArray => PyGrid.notArray
  | PyGrid.array g => PyGrid.array (updateGridWithAdjacentSum cfg g includeSelfArg)

/-- sum_adjacent_vectors as called with a raw Python argument
(vector_field.py lines 29-33): None returns (0,0); a non-array raises
TypeError. -/
def sumAdjacentVectorsPy (cfg : Config) (a : PyGrid) (x y : ℤ)
    (includeSelfArg : Option Bool) : Except PyError (ℚ × ℚ) :=
  match a with
  | PyGrid.none => Except.ok (0, 0)
  | PyGrid.notArray => Except.error PyError.typeError
  | PyGrid.array g => Except.ok (sumAdjacentVectors cfg g x y includeSelfArg)

section RealTier

open scoped Classical

/-- Python round() on a float: round half to even (banker's rounding), as
used by int(round(x)) in marker_system.py. -/
noncomputable def pyRound (z : ℝ) : ℤ :=
  if Int.fract z = 1 / 2 then (if Even ⌊z⌋ then ⌊z⌋ else ⌊z⌋ + 1)
  else round z

/-- Python int() on a float: truncation toward zero, as used by
int(cx - radius) in add_vector_at_position. -/
noncomputable def truncR (z : ℝ) : ℤ :=
  if 0 ≤ z then ⌊z⌋ else ⌈z⌉

/-- np.arctan2(y, x). -/
noncomputable def atan2 (y x : ℝ) : ℝ :=
  if 0 < x then Real.arctan (y / x)
  else if x < 0 then
    (if 0 ≤ y then Real.arctan (y / x) + Real.pi
     else Real.arctan (y / x) - Real.pi)
  else if 0 < y then Real.pi / 2
  else if y < 0 then -(Real.pi / 2)
  else 0

/-- create_radial_pattern (vector_field.py lines 158-201) with explicit
centre and radius (the defaults are resolved by the caller): every in-bounds
cell whose distance to the centre is strictly between 0 and radius is
overwritten with a vector of length magnitude*(1 - dist/radius) pointing
away from the centre (angle = atan2(dy, dx)); every other cell keeps its
value. -/
noncomputable def createRadialPattern (g : Grid ℝ) (center : ℝ × ℝ)
    (radius magnitude : ℝ) : Grid ℝ :=
  Grid.mk g.h g.w (fun y x =>
    let dx := (x : ℝ) - center.1
    let dy := (y : ℝ) - center.2
    let dist := Real.sqrt (dx ^ 2 + dy ^ 2)
    if inB g y x ∧ dist < radius ∧ 0 < dist then
      let ang := atan2 dy dx
      let m := magnitude * (1 - dist / radius)
      (m * Real.cos ang, m * Real.sin ang)
    else g.v y x)

/-- create_tangential_pattern (vector_field.py lines 203-246): identical
masking and falloff, direction rotated by +90 degrees. -/
noncomputable def createTangentialPattern (g : Grid ℝ) (center : ℝ × ℝ)
    (radius magnitude : ℝ) : Grid ℝ :=
  Grid.mk g.h g.w (fun y x =>
    let dx := (x : ℝ) - center.1
    let dy := (y : ℝ) - center.2
    let dist := Real.sqrt (dx ^ 2 + dy ^ 2)
    if inB g y x ∧ dist < radius ∧ 0 < dist then
      let ang := atan2 dy dx + Real.pi / 2
      let m := magnitude * (1 - dist / radius)
      (m * Real.cos ang, m * Real.sin ang)
    else g.v y x)

/-- A marker {x, y, mag} of MarkerSystem (marker_system.py). -/
structure Marker where
  x : ℝ
  y : ℝ
  mag : ℝ

/-- The clamped neighbourhood window of update_markers (marker_system.py
lines 85-91): rows max(0, cy-n) .. min(h-1, cy+n) and columns
max(0, cx-n) .. min(w-1, cx+n) around the rounded marker position, as a set
of (row, column) index pairs. -/
noncomputable def markerWindow (g : Grid ℝ) (m : Marker) (n : ℤ) :
    Finset (ℤ × ℤ) :=
  let cx := pyRound m.x
  let cy := pyRound m.y
  Finset.Icc (max 0 (cy - n)) (min ((g.h : ℤ) - 1) (cy + n)) ×ˢ
    Finset.Icc (max 0 (cx - n)) (min ((g.w : ℤ) - 1) (cx + n))

/-- np.sqrt(vx^2 + vy^2) at one cell. -/
noncomputable def cellMag (g : Grid ℝ) (p : ℤ × ℤ) : ℝ :=
  Real.sqrt ((g.v p.1 p.2).1 ^ 2 + (g.v p.1 p.2).2 ^ 2)

/-- sum_mag = np.sum(mags) over the neighbourhood window. -/
noncomputable def windowSumMag (g : Grid ℝ) (m : Marker) (n : ℤ) : ℝ :=
  (markerWindow g m n).sum (cellMag g)

/-- weighted_vx = np.sum(vx_neighborhood * mags). -/
noncomputable def windowWeightedVx (g : Grid ℝ) (m : Marker) (n : ℤ) : ℝ :=
  (markerWindow g m n).sum (fun p => (g.v p.1 p.2).1 * cellMag g p)

/-- weighted_vy = np.sum(vy_neighborhood * mags). -/
noncomputable def windowWeightedVy (g : Grid ℝ) (m : Marker) (n : ℤ) : ℝ :=
  (markerWindow g m n).sum (fun p => (g.v p.1 p.2).2 * cellMag g p)

/-- The per-marker body of the update_markers loop (marker_system.py lines
80-139).  An empty window (size 0, which also covers the count == 0 guard)
or a zero total magnitude keeps the marker unchanged; a mean magnitude below
clear_threshold drops it; otherwise the marker is displaced by
(mean * move_factor), clamped into [0, dim-1] on each axis, and — after the
new position is computed — create_radial_pattern(grid, center=(new_x, new_y),
radius=2.0, magnitude=m.mag) injects the corrective patch at the new
position. -/
noncomputable def processMarker (g : Grid ℝ) (m : Marker) (n : ℤ)
    (moveFactor clearThreshold : ℝ) : Grid ℝ × Option Marker :=
  if (markerWindow g m n).card = 0 then (g, some m)
  else if windowSumMag g m n = 0 then (g, some m)
  else if windowSumMag g m n / ((markerWindow g m n).card : ℝ) < clearThreshold
  then (g, none)
  else
    let count : ℝ := ((markerWindow g m n).card : ℝ)
    let nx := max 0 (min ((g.w : ℝ) - 1)
      (m.x + windowWeightedVx g m n / count * moveFactor))
    let ny := max 0 (min ((g.h : ℝ) - 1)
      (m.y + windowWeightedVy g m n / count * moveFactor))
    (createRadialPattern g (nx, ny) 2 m.mag, some (Marker.mk nx ny m.mag))

/-- update_markers: the markers are processed in list order against the
evolving grid (each injected patch is visible to later markers), and the
surviving markers are collected in processing order. -/
noncomputable def updateMarkersAux (n : ℤ) (moveFactor clearThreshold : ℝ) :
    Grid ℝ → List Marker → Grid ℝ × List Marker
  | g, [] => (g, [])
  | g, m :: ms =>
      let r := processMarker g m n moveFactor clearThreshold
      let rest := updateMarkersAux n moveFactor clearThreshold r.1 ms
      (rest.1, r.2.toList ++ rest.2)

/-- update_markers (marker_system.py lines 43-150) on a valid grid with at
least 2 vector components. -/
noncomputable def updateMarkers (g : Grid ℝ) (markers : List Marker) (n : ℤ)
    (moveFactor clearThreshold : ℝ) : Grid ℝ × List Marker :=
  updateMarkersAux n moveFactor clearThreshold g markers

/-- get_markers (marker_system.py lines 35-41): a snapshot copy of the
marker list. -/
def getMarkers (markers : List Marker) : List Marker := markers

/-- Modelled from the spec: MarkerSystem.create_tiny_vector is invoked from
src/plugins/ui.py line 188 but its definition does not appear anywhere under
src/; this definition follows the spec (section 4.5) verbatim: at the
rounded (x, y), each of the 4 orthogonal neighbours (dx, dy) with
abs dx + abs dy = 1 receives (dx*mag, dy*mag) added to it, and the cell at
(x, y) itself additionally receives (vx*mag, vy*mag).  The neighbours at
(cx+1, cy) and (cx-1, cy) contribute only to the x component, the
neighbours at (cx, cy+1) and (cx, cy-1) only to the y component. -/
noncomputable def createTinyVector (g : Grid ℝ) (x y mag vx vy : ℝ) : Grid ℝ :=
  let cx := pyRound x
  let cy := pyRound y
  Grid.mk g.h g.w (fun yy xx =>
    ((g.v yy xx).1
       + (if yy = cy ∧ xx = cx + 1 then mag else 0)
       + (if yy = cy ∧ xx = cx - 1 then -mag else 0)
       + (if yy = cy ∧ xx = cx then vx * mag else 0),
     (g.v yy xx).2
       + (if yy = cy + 1 ∧ xx = cx then mag else 0)
       + (if yy = cy - 1 ∧ xx = cx then -mag else 0)
       + (if yy = cy ∧ xx = cx then vy * mag else 0)))

/-- x clamped into [0, w-1] by add_vector_at_position (marker_system.py
line 170). -/
noncomputable def avpClampX (g : Grid ℝ) (x : ℝ) : ℝ :=
  max 0 (min ((g.w : ℝ) - 1) x)

/-- y clamped into [0, h-1] (marker_system.py line 171). -/
noncomputable def avpClampY (g : Grid ℝ) (y : ℝ) : ℝ :=
  max 0 (min ((g.h : ℝ) - 1) y)

/-- cx = int(round(clamped x)) (marker_system.py line 174). -/
noncomputable def avpCx (g : Grid ℝ) (x : ℝ) : ℤ := pyRound (avpClampX g x)

/-- cy = int(round(clamped y)) (marker_system.py line 175). -/
noncomputable def avpCy (g : Grid ℝ) (y : ℝ) : ℤ := pyRound (avpClampY g y)

/-- sx = max(0, int(cx - radius)) (marker_system.py line 178). -/
noncomputable def avpSx (g : Grid ℝ) (x r : ℝ) : ℤ :=
  max 0 (truncR ((avpCx g x : ℝ) - r))

/-- ex = min(w - 1, int(cx + radius)) (marker_system.py line 179). -/
noncomputable def avpEx (g : Grid ℝ) (x r : ℝ) : ℤ :=
  min ((g.w : ℤ) - 1) (truncR ((avpCx g x : ℝ) + r))

/-- sy = max(0, int(cy - radius)) (marker_system.py line 180). -/
noncomputable def avpSy (g : Grid ℝ) (y r : ℝ) : ℤ :=
  max 0 (truncR ((avpCy g y : ℝ) - r))

/-- ey = min(h - 1, int(cy + radius)) (marker_system.py line 181). -/
noncomputable def avpEy (g : Grid ℝ) (y r : ℝ) : ℤ :=
  min ((g.h : ℤ) - 1) (truncR ((avpCy g y : ℝ) + r))

/-- add_vector_at_position (marker_system.py lines 153-200): the target is
clamped into the grid, the box [sy, ey] × [sx, ex] around the rounded
clamped position is traversed, and each cell receives
(vx, vy) * max(0, 1 - dist/radius).  With radius = 0 the division dist/radius
raises ZeroDivisionError inside the per-cell try, which is swallowed by the
`except: continue`, so no cell is written; this is the `radius ≠ 0` guard. -/
noncomputable def addVectorAtPosition (g : Grid ℝ) (x y vx vy r : ℝ) :
    Grid ℝ :=
  Grid.mk g.h g.w (fun yy xx =>
    if avpSy g y r ≤ yy ∧ yy ≤ avpEy g y r
        ∧ avpSx g x r ≤ xx ∧ xx ≤ avpEx g x r ∧ r ≠ 0 then
      let dx := (xx : ℝ) - (avpCx g x : ℝ)
      let dy := (yy : ℝ) - (avpCy g y : ℝ)
      let dist := Real.sqrt (dx * dx + dy * dy)
      let factor := max 0 (1 - dist / r)
      ((g.v yy xx).1 + vx * factor, (g.v yy xx).2 + vy * factor)
    else g.v yy xx)

end RealTier

/-! Concrete data used by the witnesses and counterexamples. -/

/-- A small non-constant 3×3 rational grid. -/
def gC1 : Grid ℚ :=
  Grid.mk 3 3 (fun y x => (((2 * x + y : ℤ) : ℚ), ((y - x : ℤ) : ℚ)))

/-- A small non-constant 2×2 rational grid. -/
def gC2 : Grid ℚ :=
  Grid.mk 2 2 (fun y x => (((x + 1 : ℤ) : ℚ), ((y + 2 : ℤ) : ℚ)))

/-- A small non-constant 3×3 rational grid. -/
def gC3 : Grid ℚ :=
  Grid.mk 3 3 (fun y x => (((x * x + y : ℤ) : ℚ), ((3 * y - x : ℤ) : ℚ)))

/-- A 3×3 grid with vx = 2x - 2 and vy = 0: a divergent field whose centre
detection accepts the two cells (x, y) = (0, 1) and (2, 1). -/
def gC8 : Grid ℚ :=
  Grid.mk 3 3 (fun _ x => (if x = 0 then -2 else if x = 1 then 0 else 2, 0))

/-- A 1×1 real grid with the constant vector (1, 0). -/
noncomputable def gC4 : Grid ℝ := Grid.mk 1 1 (fun _ _ => (1, 0))

/-- A marker at the origin with magnitude 1. -/
noncomputable def mC4 : Marker := Marker.mk 0 0 1

/-- A 1×1 all-zero real grid. -/
noncomputable def gC6 : Grid ℝ := Grid.mk 1 1 (fun _ _ => (0, 0))

/-- A marker at the origin with magnitude 1. -/
noncomputable def mC6 : Marker := Marker.mk 0 0 1

/-- A 2×2 all-zero real grid. -/
noncomputable def gC7 : Grid ℝ := Grid.mk 2 2 (fun _ _ => (0, 0))

/-- A 3×3 real grid with the constant vector (3, 4). -/
noncomputable def gC9 : Grid ℝ := Grid.mk 3 3 (fun _ _ => (3, 4))

/-- A 3×3 all-zero real grid. -/
noncomputable def gC10 : Grid ℝ := Grid.mk 3 3 (fun _ _ => (0, 0))

/-! Helper lemmas shared by several claims. -/

theorem inB_iff {α : Type} (g : Grid α) (y x : ℤ) :
    inB g y x ↔ 0 ≤ y ∧ y < (g.h : ℤ) ∧ 0 ≤ x ∧ x < (g.w : ℤ) := Iff.rfl

theorem pyRound_intCast (n : ℤ) : pyRound ((n : ℤ) : ℝ) = n := by
  unfold pyRound
  rw [Int.fract_intCast]
  norm_num

theorem pyRound_zero : pyRound (0 : ℝ) = 0 := by
  simpa using pyRound_intCast 0

theorem truncR_intCast (n : ℤ) : truncR ((n : ℤ) : ℝ) = n := by
  unfold truncR
  split_ifs <;> simp

/-- The rational encoding sqrtLtQ is exactly the comparison
sqrt d2 < md performed by find_vector_centers, for nonnegative d2. -/
theorem sqrtLtQ_iff (d2 md : ℚ) :
    sqrtLtQ d2 md ↔ Real.sqrt (d2 : ℝ) < (md : ℝ) := by
  constructor
  · rintro ⟨hmd, hlt⟩
    have hmd' : (0 : ℝ) < (md : ℝ) := by exact_mod_cast hmd
    rw [Real.sqrt_lt' hmd']
    exact_mod_cast hlt
  · intro hlt
    have hmd : (0 : ℝ) < (md : ℝ) :=
      lt_of_le_of_lt (Real.sqrt_nonneg _) hlt
    refine ⟨by exact_mod_cast hmd, ?_⟩
    have := (Real.sqrt_lt' hmd).1 hlt
    exact_mod_cast this

/-- The rational encoding 1/100 < magSq is exactly the comparison
0.1 < sqrt(vx^2 + vy^2) performed by find_vector_centers. -/
theorem magGtTenth_iff (m2 : ℚ) :
    1 / 100 < m2 ↔ (1 / 10 : ℝ) < Real.sqrt (m2 : ℝ) := by
  rw [show ((1 : ℝ) / 10) = Real.sqrt ((1 : ℝ) / 100) by
        rw [show ((1 : ℝ) / 100) = (1 / 10 : ℝ) ^ 2 by norm_num,
          Real.sqrt_sq (by norm_num)]]
  rw [Real.sqrt_lt_sqrt_iff (by norm_num),
    show ((1 : ℝ) / 100) = ((1 / 100 : ℚ) : ℝ) by norm_num]
  exact Rat.cast_lt.symm

/-! Claim C1. -/

/-- C1: for every grid and every interior cell (x, y), with enable_average
and enable_normalization both off and the same self_weight, neighbor_weight
and include_self, sum_adjacent_vectors returns exactly the value that
update_grid_with_adjacent_sum writes into cell (y, x), namely
(self_weight * grid[y,x] if include_self) + neighbor_weight * (sum of the
four axis-aligned in-bounds neighbours). -/
theorem point_sum_matches_update_all_interior
    (sw nw : ℚ) (inclD : Bool) (iArg : Option Bool) (g : Grid ℚ) (x y : ℤ)
    (hx1 : 1 ≤ x) (hx2 : x ≤ (g.w : ℤ) - 2)
    (hy1 : 1 ≤ y) (hy2 : y ≤ (g.h : ℤ) - 2) :
    sumAdjacentVectors (Config.mk sw nw false false inclD) g x y iArg
      = (updateGridWithAdjacentSum (Config.mk sw nw false false inclD) g iArg).v y x
    ∧ sumAdjacentVectors (Config.mk sw nw false false inclD) g x y iArg
      = ((if iArg.getD inclD then sw * (g.v y x).1 else 0)
           + nw * ((g.v (y - 1) x).1 + (g.v (y + 1) x).1
                     + (g.v y (x - 1)).1 + (g.v y (x + 1)).1),
         (if iArg.getD inclD then sw * (g.v y x).2 else 0)
           + nw * ((g.v (y - 1) x).2 + (g.v (y + 1) x).2
                     + (g.v y (x - 1)).2 + (g.v y (x + 1)).2)) := by
  have hib : inB g y x := (inB_iff g y x).2 (by omega)
  have hd : inB g (y - 1) x := (inB_iff g (y - 1) x).2 (by omega)
  have hu : inB g (y + 1) x := (inB_iff g (y + 1) x).2 (by omega)
  have hl : inB g y (x - 1) := (inB_iff g y (x - 1)).2 (by omega)
  have hr : inB g y (x + 1) := (inB_iff g y (x + 1)).2 (by omega)
  constructor
  · simp only [sumAdjacentVectors, updateGridWithAdjacentSum, adjacentRawSumX,
      adjacentRawSumY, adjacentCount, updateRawX, updateRawY, padV,
      hib, hu, hd, hl, hr, if_true, and_true]
    cases hI : iArg.getD inclD <;>
      simp only [Bool.false_eq_true, Bool.true_eq_false, eq_self_iff_true,
        false_and, true_and, if_false, if_true, Prod.mk.injEq] <;>
      exact ⟨by ring, by ring⟩
  · simp only [sumAdjacentVectors, adjacentRawSumX, adjacentRawSumY,
      adjacentCount, hib, hu, hd, hl, hr, if_true, and_true]
    cases hI : iArg.getD inclD <;>
      simp only [Bool.false_eq_true, Bool.true_eq_false, eq_self_iff_true,
        false_and, true_and, if_false, if_true, Prod.mk.injEq] <;>
      exact ⟨by ring, by ring⟩

/-- C1 witness: the theorem applied to the concrete grid gC1 at the interior
cell (1, 1). -/
theorem point_sum_matches_update_all_interior_witness :
    (1 ≤ (1 : ℤ) ∧ (1 : ℤ) ≤ (gC1.w : ℤ) - 2)
    ∧ sumAdjacentVectors (Config.mk 2 (1 / 10) false false true) gC1 1 1 none
        = (updateGridWithAdjacentSum (Config.mk 2 (1 / 10) false false true)
            gC1 none).v 1 1 :=
  ⟨⟨by decide, by decide⟩,
   (point_sum_matches_update_all_interior 2 (1 / 10) true none gC1 1 1
      (by decide) (by decide) (by decide) (by decide)).1⟩

/-! Claim C2. -/

/-- C2: with enable_average on, the whole-grid operation leaves each output
cell equal to the plain weighted (zero-padded) sum — the analytic count is
computed but the division by it is disabled — whereas the per-cell
operation does divide its accumulated sum by the count of terms actually
added. -/
theorem update_all_average_division_disabled
    (sw nw : ℚ) (inclD : Bool) (iArg : Option Bool) (g : Grid ℚ) (x y : ℤ)
    (hin : inB g y x)
    (hc : 0 < adjacentCount g (iArg.getD inclD) x y) :
    (updateGridWithAdjacentSum (Config.mk sw nw true false inclD) g iArg).v y x
      = ((if iArg.getD inclD then sw * (g.v y x).1 else 0)
           + (nw * (padV g (y + 1) x).1 + nw * (padV g (y - 1) x).1
                + nw * (padV g y (x + 1)).1 + nw * (padV g y (x - 1)).1),
         (if iArg.getD inclD then sw * (g.v y x).2 else 0)
           + (nw * (padV g (y + 1) x).2 + nw * (padV g (y - 1) x).2
                + nw * (padV g y (x + 1)).2 + nw * (padV g y (x - 1)).2))
    ∧ sumAdjacentVectors (Config.mk sw nw true false inclD) g x y iArg
      = ((sumAdjacentVectors (Config.mk sw nw false false inclD) g x y iArg).1
            / (adjacentCount g (iArg.getD inclD) x y : ℚ),
         (sumAdjacentVectors (Config.mk sw nw false false inclD) g x y iArg).2
            / (adjacentCount g (iArg.getD inclD) x y : ℚ)) := by
  constructor
  · simp only [updateGridWithAdjacentSum, updateRawX, updateRawY, hin,
      eq_self_iff_true, if_true]
    cases hI : iArg.getD inclD <;>
      simp only [Bool.false_eq_true, Bool.true_eq_false, eq_self_iff_true,
        false_and, true_and, if_false, if_true, Prod.mk.injEq] <;>
      exact ⟨by ring, by ring⟩
  · simp only [sumAdjacentVectors, hc, and_true, eq_self_iff_true, true_and,
      Bool.false_eq_true, false_and, if_true, if_false]
    simp only [adjacentRawSumX, adjacentRawSumY]

/-- C2 witness: the theorem applied to the concrete grid gC2 at cell
(0, 0). -/
theorem update_all_average_division_disabled_witness :
    (0 < adjacentCount gC2 true 0 0)
    ∧ sumAdjacentVectors (Config.mk 1 (1 / 2) true false true) gC2 0 0 none
        = ((sumAdjacentVectors (Config.mk 1 (1 / 2) false false true) gC2 0 0 none).1
             / (adjacentCount gC2 true 0 0 : ℚ),
           (sumAdjacentVectors (Config.mk 1 (1 / 2) false false true) gC2 0 0 none).2
             / (adjacentCount gC2 true 0 0 : ℚ)) :=
  ⟨by decide,
   (update_all_average_division_disabled 1 (1 / 2) true none gC2 0 0
      (by decide) (by decide)).2⟩

/-! Claim C3. -/

/-- C3: the divergence field computed inside find_vector_centers uses
exactly the specified finite differences — interior cells use centred
differences divided by 2 on both axes; top/bottom rows keep the centred/2
x-difference but a one-sided undivided y-difference; left/right columns keep
a one-sided undivided x-difference but a centred/2 y-difference; and the
four corner cells are never written by any pass and remain exactly zero. -/
theorem divergence_stencil_formulas (g : Grid ℚ) (x y : ℤ)
    (hh : 2 ≤ g.h) (hw : 2 ≤ g.w) :
    (1 ≤ x → x ≤ (g.w : ℤ) - 2 → 1 ≤ y → y ≤ (g.h : ℤ) - 2 →
      divField g y x
        = ((g.v y (x + 1)).1 - (g.v y (x - 1)).1) / 2
          + ((g.v (y + 1) x).2 - (g.v (y - 1) x).2) / 2)
    ∧ (1 ≤ x → x ≤ (g.w : ℤ) - 2 →
      divField g 0 x
        = ((g.v 0 (x + 1)).1 - (g.v 0 (x - 1)).1) / 2
          + ((g.v 1 x).2 - (g.v 0 x).2))
    ∧ (1 ≤ x → x ≤ (g.w : ℤ) - 2 →
      divField g ((g.h : ℤ) - 1) x
        = ((g.v ((g.h : ℤ) - 1) (x + 1)).1 - (g.v ((g.h : ℤ) - 1) (x - 1)).1) / 2
          + ((g.v ((g.h : ℤ) - 1) x).2 - (g.v ((g.h : ℤ) - 2) x).2))
    ∧ (1 ≤ y → y ≤ (g.h : ℤ) - 2 →
      divField g y 0
        = ((g.v y 1).1 - (g.v y 0).1)
          + ((g.v (y + 1) 0).2 - (g.v (y - 1) 0).2) / 2)
    ∧ (1 ≤ y → y ≤ (g.h : ℤ) - 2 →
      divField g y ((g.w : ℤ) - 1)
        = ((g.v y ((g.w : ℤ) - 1)).1 - (g.v y ((g.w : ℤ) - 2)).1)
          + ((g.v (y + 1) ((g.w : ℤ) - 1)).2 - (g.v (y - 1) ((g.w : ℤ) - 1)).2) / 2)
    ∧ (divField g 0 0 = 0 ∧ divField g 0 ((g.w : ℤ) - 1) = 0
        ∧ divField g ((g.h : ℤ) - 1) 0 = 0
        ∧ divField g ((g.h : ℤ) - 1) ((g.w : ℤ) - 1) = 0) := by
  refine ⟨?_, ?_, ?_, ?_, ?_, ?_, ?_, ?_, ?_⟩
  · intro h1 h2 h3 h4
    simp only [divField, eq_self_iff_true, true_and]
    split_ifs <;> first | rfl | (exfalso; omega)
  · intro h1 h2
    simp only [divField, eq_self_iff_true, true_and]
    split_ifs <;> first | rfl | (exfalso; omega)
  · intro h1 h2
    simp only [divField, eq_self_iff_true, true_and]
    split_ifs <;> first | rfl | (exfalso; omega)
  · intro h1 h2
    simp only [divField, eq_self_iff_true, true_and]
    split_ifs <;> first | rfl | (exfalso; omega)
  · intro h1 h2
    simp only [divField, eq_self_iff_true, true_and]
    split_ifs <;> first | rfl | (exfalso; omega)
  · simp only [divField]
    split_ifs <;> first | rfl | (exfalso; omega)
  · simp only [divField]
    split_ifs <;> first | rfl | (exfalso; omega)
  · simp only [divField]
    split_ifs <;> first | rfl | (exfalso; omega)
  · simp only [divField]
    split_ifs <;> first | rfl | (exfalso; omega)

/-- C3 witness: the theorem applied to the concrete grid gC3, checking the
interior formula at (1, 1) and the corner (0, 0). -/
theorem divergence_stencil_formulas_witness :
    divField gC3 1 1
      = ((gC3.v 1 2).1 - (gC3.v 1 0).1) / 2 + ((gC3.v 2 1).2 - (gC3.v 0 1).2) / 2
    ∧ divField gC3 0 0 = 0 := by
  have t := divergence_stencil_formulas gC3 1 1 (by decide) (by decide)
  exact ⟨t.1 (by decide) (by decide) (by decide) (by decide), t.2.2.2.2.2.1⟩

/-! Claim C5. -/

/-- C5 counterexample: create_vector_grid(width = 0) succeeds with an empty
grid although 0 is non-positive, and find_vector_centers /
update_grid_with_adjacent_sum return defaults ([] and the argument
unchanged) instead of failing on a non-array grid. -/
theorem invalid_input_claim_false :
    createVectorGrid 0 480 (0, 0)
        = Except.ok (Grid.mk 480 0 (fun _ _ => ((0 : ℚ), (0 : ℚ))))
    ∧ findVectorCentersPy PyGrid.notArray (1 / 2) 10 = []
    ∧ updateGridPy (Config.mk 1 (1 / 10) false false true) PyGrid.notArray none
        = PyGrid.notArray :=
  ⟨rfl, rfl, rfl⟩

/-- C5 amended: create_vector_grid raises only for a negative width or
height (a zero dimension yields an empty grid); find_vector_centers returns
[] and update_grid_with_adjacent_sum returns its argument unchanged for a
None or non-array grid; sum_adjacent_vectors returns (0,0) for None and
raises TypeError for a non-array grid. -/
theorem invalid_input_amended (w h : ℤ) (d : ℚ × ℚ) (t md : ℚ)
    (cfg : Config) (iArg : Option Bool) (x y : ℤ) :
    (w < 0 ∨ h < 0 → createVectorGrid w h d = Except.error PyError.valueError)
    ∧ (0 ≤ w → 0 ≤ h →
        createVectorGrid w h d
          = Except.ok (Grid.mk h.toNat w.toNat (fun _ _ => d)))
    ∧ findVectorCentersPy PyGrid.none t md = []
    ∧ findVectorCentersPy PyGrid.notArray t md = []
    ∧ updateGridPy cfg PyGrid.none iArg = PyGrid.none
    ∧ updateGridPy cfg PyGrid.notArray iArg = PyGrid.notArray
    ∧ sumAdjacentVectorsPy cfg PyGrid.none x y iArg = Except.ok (0, 0)
    ∧ sumAdjacentVectorsPy cfg PyGrid.notArray x y iArg
        = Except.error PyError.typeError := by
  refine ⟨?_, ?_, rfl, rfl, rfl, rfl, rfl, rfl⟩
  · intro hneg
    unfold createVectorGrid
    rw [if_pos (by omega)]
  · intro hw0 hh0
    unfold createVectorGrid
    rw [if_neg (by omega)]

/-- C5 amended witness: the amended theorem applied at width = -1. -/
theorem invalid_input_amended_witness :
    ((-1 : ℤ) < 0 ∨ (5 : ℤ) < 0)
    ∧ createVectorGrid (-1) 5 (0, 0) = Except.error PyError.valueError :=
  ⟨Or.inl (by decide),
   (invalid_input_amended (-1) 5 (0, 0) (1 / 2) 10
      (Config.mk 1 (1 / 10) false false true) none 0 0).1 (Or.inl (by decide))⟩

/-! Claim C8. -/

theorem centersStep_sepOK (g : Grid ℚ) (md : ℚ) (cs : List (ℤ × ℤ))
    (p : ℤ × ℤ) (h : sepOK md cs) : sepOK md (centersStep g md cs p) := by
  unfold centersStep
  split_ifs with hcond
  · intro a ha b hb hab
    rcases List.mem_append.1 ha with ha' | ha' <;>
      rcases List.mem_append.1 hb with hb' | hb'
    · exact h a ha' b hb' hab
    · have hb2 : b = (p.2, p.1) := by simpa using hb'
      subst hb2
      rcases not_and_or.1 (hcond.2 a ha') with hmd | hlt
      · exact Or.inl (le_of_not_lt hmd)
      · refine Or.inr ?_
        have h2 := le_of_not_lt hlt
        rw [show dist2 a (p.2, p.1) = dist2 (p.2, p.1) a by unfold dist2; ring]
        exact h2
    · have ha2 : a = (p.2, p.1) := by simpa using ha'
      subst ha2
      rcases not_and_or.1 (hcond.2 b hb') with hmd | hlt
      · exact Or.inl (le_of_not_lt hmd)
      · exact Or.inr (le_of_not_lt hlt)
    · have ha2 : a = (p.2, p.1) := by simpa using ha'
      have hb2 : b = (p.2, p.1) := by simpa using hb'
      exact absurd (ha2.trans hb2.symm) hab
  · exact h

theorem foldl_sepOK (g : Grid ℚ) (md : ℚ) (l : List (ℤ × ℤ)) :
    ∀ cs, sepOK md cs → sepOK md (l.foldl (centersStep g md) cs) := by
  induction l with
  | nil => exact fun cs h => h
  | cons p ps ih => exact fun cs h => ih _ (centersStep_sepOK g md cs p h)

theorem centersStep_magOK (g : Grid ℚ) (md : ℚ) (cs : List (ℤ × ℤ))
    (p : ℤ × ℤ) (h : magOK g cs) : magOK g (centersStep g md cs p) := by
  unfold centersStep
  split_ifs with hcond
  · intro c hc
    rcases List.mem_append.1 hc with hc' | hc'
    · exact h c hc'
    · have hc2 : c = (p.2, p.1) := by simpa using hc'
      subst hc2
      simpa using hcond.1
  · exact h

theorem foldl_magOK (g : Grid ℚ) (md : ℚ) (l : List (ℤ × ℤ)) :
    ∀ cs, magOK g cs → magOK g (l.foldl (centersStep g md) cs) := by
  induction l with
  | nil => exact fun cs h => h
  | cons p ps ih => exact fun cs h => ih _ (centersStep_magOK g md cs p h)

theorem sources_magOK (g : Grid ℚ) (t md : ℚ) :
    magOK g (vectorCentersSources g t md) := by
  unfold vectorCentersSources
  split_ifs
  · exact foldl_magOK g md _ [] (fun c hc => by simp at hc)
  · exact fun c hc => by simp at hc

theorem find_sepOK (g : Grid ℚ) (t md : ℚ) :
    sepOK md (findVectorCenters g t md) := by
  have hsrc : sepOK md (vectorCentersSources g t md) := by
    unfold vectorCentersSources
    split_ifs
    · exact foldl_sepOK g md _ [] (fun a ha => by simp at ha)
    · exact fun a ha => by simp at ha
  unfold findVectorCenters
  split_ifs
  · exact foldl_sepOK g md _ _ hsrc
  · exact hsrc

/-- C8: every two distinct centres returned by find_vector_centers (sources
or sinks — the sink pass deduplicates against the already accepted sources
as well) lie at Euclidean distance at least min_distance from each other,
and every accepted source centre has local vector magnitude above 0.1. -/
theorem centers_pairwise_min_distance (g : Grid ℚ) (t md : ℚ)
    (hh : 2 ≤ g.h) (hw : 2 ≤ g.w) (c1 c2 : ℤ × ℤ)
    (h1 : c1 ∈ findVectorCenters g t md) (h2 : c2 ∈ findVectorCenters g t md)
    (hne : c1 ≠ c2) :
    (md : ℝ) ≤ Real.sqrt ((dist2 c1 c2 : ℤ) : ℝ)
    ∧ ∀ c ∈ vectorCentersSources g t md,
        (1 / 10 : ℝ) < Real.sqrt ((magSq g c.2 c.1 : ℚ) : ℝ) := by
  constructor
  · rcases find_sepOK g t md c1 h1 c2 h2 hne with hmd | hd2
    · calc (md : ℝ) ≤ 0 := by exact_mod_cast hmd
        _ ≤ _ := Real.sqrt_nonneg _
    · rcases le_or_lt md 0 with hmd0 | hmd0
      · calc (md : ℝ) ≤ 0 := by exact_mod_cast hmd0
          _ ≤ _ := Real.sqrt_nonneg _
      · have hsq : ((md : ℝ)) ^ 2 ≤ ((dist2 c1 c2 : ℤ) : ℝ) := by
          exact_mod_cast hd2
        rw [show (md : ℝ) = Real.sqrt ((md : ℝ) ^ 2) from
          (Real.sqrt_sq (le_of_lt (by exact_mod_cast hmd0))).symm]
        exact Real.sqrt_le_sqrt hsq
  · intro c hc
    exact (magGtTenth_iff (magSq g c.2 c.1)).1 (sources_magOK g t md c hc)

/-- C8 witness: the theorem applied to the concrete grid gC8, whose centre
detection returns the two distinct centres (0, 1) and (2, 1). -/
theorem centers_pairwise_min_distance_witness :
    (((0, 1) : ℤ × ℤ) ∈ findVectorCenters gC8 (1 / 2) 1
        ∧ ((2, 1) : ℤ × ℤ) ∈ findVectorCenters gC8 (1 / 2) 1
        ∧ ((0, 1) : ℤ × ℤ) ≠ ((2, 1) : ℤ × ℤ))
    ∧ ((1 : ℚ) : ℝ) ≤ Real.sqrt ((dist2 (0, 1) (2, 1) : ℤ) : ℝ) := by
  have hc : cellsRowMajor gC8
      = [(0, 0), (0, 1), (0, 2), (1, 0), (1, 1), (1, 2), (2, 0), (2, 1), (2, 2)] :=
    rfl
  have hfind : findVectorCenters gC8 (1 / 2) 1 = [(0, 1), (2, 1)] := by
    rw [findVectorCenters, vectorCentersSources, maxDiv, minDiv, hc]
    norm_num [divField, gC8, max_def, min_def, centersStep, magSq, dist2, sqrtLtQ]
  have h1 : ((0, 1) : ℤ × ℤ) ∈ findVectorCenters gC8 (1 / 2) 1 := by
    rw [hfind]; decide
  have h2 : ((2, 1) : ℤ × ℤ) ∈ findVectorCenters gC8 (1 / 2) 1 := by
    rw [hfind]; decide
  exact ⟨⟨h1, h2, by decide⟩,
    (centers_pairwise_min_distance gC8 (1 / 2) 1 (by decide) (by decide)
      (0, 1) (2, 1) h1 h2 (by decide)).1⟩

/-! Claim C9. -/

/-- C9: the radial and tangential pattern generators only overwrite cells
whose distance to the centre is strictly between 0 and radius: every cell at
distance at least radius from the centre, and the cell exactly at the centre
(distance 0), keeps exactly the vector value it had before the call. -/
theorem patterns_preserve_outside_and_center (g : Grid ℝ) (center : ℝ × ℝ)
    (radius magnitude : ℝ) (y x : ℤ)
    (hd : radius ≤ Real.sqrt (((x : ℝ) - center.1) ^ 2 + ((y : ℝ) - center.2) ^ 2)
        ∨ Real.sqrt (((x : ℝ) - center.1) ^ 2 + ((y : ℝ) - center.2) ^ 2) = 0) :
    (createRadialPattern g center radius magnitude).v y x = g.v y x
    ∧ (createTangentialPattern g center radius magnitude).v y x = g.v y x := by
  have hnot : ¬ (inB g y x
      ∧ Real.sqrt (((x : ℝ) - center.1) ^ 2 + ((y : ℝ) - center.2) ^ 2) < radius
      ∧ 0 < Real.sqrt (((x : ℝ) - center.1) ^ 2 + ((y : ℝ) - center.2) ^ 2)) := by
    rintro ⟨-, hlt, hpos⟩
    rcases hd with hge | h0
    · exact absurd hlt (not_lt.2 hge)
    · rw [h0] at hpos
      exact lt_irrefl 0 hpos
  constructor
  · simp only [createRadialPattern]
    rw [if_neg hnot]
  · simp only [createTangentialPattern]
    rw [if_neg hnot]

/-- C9 witness: the theorem applied to the concrete grid gC9 with centre
(0, 0) and radius 1, at the cell (y, x) = (0, 2) of distance 2. -/
theorem patterns_preserve_outside_and_center_witness :
    (1 : ℝ) ≤ Real.sqrt ((((2 : ℤ) : ℝ) - ((0 : ℝ), (0 : ℝ)).1) ^ 2
        + (((0 : ℤ) : ℝ) - ((0 : ℝ), (0 : ℝ)).2) ^ 2)
    ∧ (createRadialPattern gC9 ((0 : ℝ), (0 : ℝ)) 1 5).v 0 2 = gC9.v 0 2 := by
  have hsq : (((2 : ℤ) : ℝ) - ((0 : ℝ), (0 : ℝ)).1) ^ 2
      + (((0 : ℤ) : ℝ) - ((0 : ℝ), (0 : ℝ)).2) ^ 2 = 4 := by norm_num
  have h1 : (1 : ℝ) ≤ Real.sqrt ((((2 : ℤ) : ℝ) - ((0 : ℝ), (0 : ℝ)).1) ^ 2
      + (((0 : ℤ) : ℝ) - ((0 : ℝ), (0 : ℝ)).2) ^ 2) := by
    rw [hsq, show (4 : ℝ) = 2 ^ 2 by norm_num,
      Real.sqrt_sq (by norm_num : (0 : ℝ) ≤ 2)]
    norm_num
  exact ⟨h1,
    (patterns_preserve_outside_and_center gC9 ((0 : ℝ), (0 : ℝ)) 1 5 0 2
      (Or.inl h1)).1⟩

/-! Claim C10. -/

/-- C10: add_vector_at_position never reads or writes outside the grid and
never fails: the target position is clamped into [0, w-1]×[0, h-1], the
additive writes are confined to the in-bounds box [sy, ey]×[sx, ex] around
the rounded clamped position (so an out-of-range injection is relocated to
the nearest border cell), every cell of the box is in bounds, and every cell
outside the box is unchanged. -/
theorem add_vector_at_position_bounded (g : Grid ℝ) (x y vx vy r : ℝ)
    (yy xx : ℤ)
    (hout : ¬ (avpSy g y r ≤ yy ∧ yy ≤ avpEy g y r
        ∧ avpSx g x r ≤ xx ∧ xx ≤ avpEx g x r)) :
    (addVectorAtPosition g x y vx vy r).v yy xx = g.v yy xx
    ∧ ∀ yy' xx' : ℤ, avpSy g y r ≤ yy' → yy' ≤ avpEy g y r →
        avpSx g x r ≤ xx' → xx' ≤ avpEx g x r →
        0 ≤ yy' ∧ yy' < (g.h : ℤ) ∧ 0 ≤ xx' ∧ xx' < (g.w : ℤ) := by
  constructor
  · simp only [addVectorAtPosition]
    rw [if_neg (fun hcond =>
      hout ⟨hcond.1, hcond.2.1, hcond.2.2.1, hcond.2.2.2.1⟩)]
  · intro yy' xx' h1 h2 h3 h4
    simp only [avpSy, avpSx, avpEy, avpEx] at h1 h2 h3 h4
    have hy1 : (0 : ℤ) ≤ yy' := le_trans (le_max_left 0 _) h1
    have hy2 : yy' ≤ (g.h : ℤ) - 1 := le_trans h2 (min_le_left _ _)
    have hx1 : (0 : ℤ) ≤ xx' := le_trans (le_max_left 0 _) h3
    have hx2 : xx' ≤ (g.w : ℤ) - 1 := le_trans h4 (min_le_left _ _)
    exact ⟨hy1, by omega, hx1, by omega⟩

/-- C10 witness: the theorem applied to the concrete grid gC10 at the far
out-of-range position (-5, -5) (which clamps to the border cell (0, 0)) with
radius 1, checking the cell (2, 2) outside the write box [0,1]×[0,1]. -/
theorem add_vector_at_position_bounded_witness :
    ¬ (avpSy gC10 (-5) 1 ≤ (2 : ℤ) ∧ (2 : ℤ) ≤ avpEy gC10 (-5) 1
        ∧ avpSx gC10 (-5) 1 ≤ (2 : ℤ) ∧ (2 : ℤ) ≤ avpEx gC10 (-5) 1)
    ∧ (addVectorAtPosition gC10 (-5) (-5) 1 1 1).v 2 2 = gC10.v 2 2 := by
  have hclY : avpClampY gC10 (-5) = 0 := by
    simp only [avpClampY, gC10]
    norm_num [min_def, max_def]
  have hcy : avpCy gC10 (-5) = 0 := by
    rw [avpCy, hclY, pyRound_zero]
  have hey : avpEy gC10 (-5) 1 = 1 := by
    rw [avpEy, hcy]
    rw [show (((0 : ℤ) : ℝ) + 1) = ((1 : ℤ) : ℝ) by norm_num, truncR_intCast]
    simp [gC10]
  have hout : ¬ (avpSy gC10 (-5) 1 ≤ (2 : ℤ) ∧ (2 : ℤ) ≤ avpEy gC10 (-5) 1
      ∧ avpSx gC10 (-5) 1 ≤ (2 : ℤ) ∧ (2 : ℤ) ≤ avpEx gC10 (-5) 1) := by
    rw [hey]
    rintro ⟨-, habs, -⟩
    omega
  exact ⟨hout,
    (add_vector_at_position_bounded gC10 (-5) (-5) 1 1 1 2 2 hout).1⟩

/-! Claim C7. -/

/-- C7: create_tiny_vector (modelled from the spec, its definition is not
under src/) adds (dx*mag, dy*mag) to each of the four orthogonal neighbours
(dx, dy) of the rounded (x, y), adds (vx*mag, vy*mag) to the cell at the
rounded (x, y) itself, and leaves every other cell unchanged. -/
theorem create_tiny_vector_spec (g : Grid ℝ) (x y mag vx vy : ℝ) :
    (createTinyVector g x y mag vx vy).v (pyRound y) (pyRound x + 1)
        = ((g.v (pyRound y) (pyRound x + 1)).1 + mag,
           (g.v (pyRound y) (pyRound x + 1)).2)
    ∧ (createTinyVector g x y mag vx vy).v (pyRound y) (pyRound x - 1)
        = ((g.v (pyRound y) (pyRound x - 1)).1 - mag,
           (g.v (pyRound y) (pyRound x - 1)).2)
    ∧ (createTinyVector g x y mag vx vy).v (pyRound y + 1) (pyRound x)
        = ((g.v (pyRound y + 1) (pyRound x)).1,
           (g.v (pyRound y + 1) (pyRound x)).2 + mag)
    ∧ (createTinyVector g x y mag vx vy).v (pyRound y - 1) (pyRound x)
        = ((g.v (pyRound y - 1) (pyRound x)).1,
           (g.v (pyRound y - 1) (pyRound x)).2 - mag)
    ∧ (createTinyVector g x y mag vx vy).v (pyRound y) (pyRound x)
        = ((g.v (pyRound y) (pyRound x)).1 + vx * mag,
           (g.v (pyRound y) (pyRound x)).2 + vy * mag)
    ∧ ∀ yy xx : ℤ,
        (yy, xx) ∉ [(pyRound y, pyRound x + 1), (pyRound y, pyRound x - 1),
          (pyRound y + 1, pyRound x), (pyRound y - 1, pyRound x),
          (pyRound y, pyRound x)] →
        (createTinyVector g x y mag vx vy).v yy xx = g.v yy xx := by
  refine ⟨?_, ?_, ?_, ?_, ?_, ?_⟩
  · simp only [createTinyVector, eq_self_iff_true, true_and, and_true]
    split_ifs <;>
      first
        | (exfalso; omega)
        | (simp only [Prod.mk.injEq]; constructor <;> ring)
  · simp only [createTinyVector, eq_self_iff_true, true_and, and_true]
    split_ifs <;>
      first
        | (exfalso; omega)
        | (simp only [Prod.mk.injEq]; constructor <;> ring)
  · simp only [createTinyVector, eq_self_iff_true, true_and, and_true]
    split_ifs <;>
      first
        | (exfalso; omega)
        | (simp only [Prod.mk.injEq]; constructor <;> ring)
  · simp only [createTinyVector, eq_self_iff_true, true_and, and_true]
    split_ifs <;>
      first
        | (exfalso; omega)
        | (simp only [Prod.mk.injEq]; constructor <;> ring)
  · simp only [createTinyVector, eq_self_iff_true, true_and, and_true]
    split_ifs <;>
      first
        | (exfalso; omega)
        | (simp only [Prod.mk.injEq]; constructor <;> ring)
  · intro yy xx hmem
    simp only [List.mem_cons, List.not_mem_nil, or_false, Prod.mk.injEq,
      not_or] at hmem
    obtain ⟨h1, h2, h3, h4, h5⟩ := hmem
    simp only [createTinyVector]
    simp only [if_neg h1, if_neg h2, if_neg h5, if_neg h3, if_neg h4]
    simp

/-- C7 witness: the theorem applied to the concrete grid gC7 at (0, 0),
checking that the far cell (5, 5) is unchanged. -/
theorem create_tiny_vector_spec_witness :
    (((5 : ℤ), (5 : ℤ)) ∉ [(pyRound (0 : ℝ), pyRound (0 : ℝ) + 1),
        (pyRound (0 : ℝ), pyRound (0 : ℝ) - 1),
        (pyRound (0 : ℝ) + 1, pyRound (0 : ℝ)),
        (pyRound (0 : ℝ) - 1, pyRound (0 : ℝ)),
        (pyRound (0 : ℝ), pyRound (0 : ℝ))])
    ∧ (createTinyVector gC7 0 0 2 3 4).v 5 5 = gC7.v 5 5 := by
  have hmem : ((5 : ℤ), (5 : ℤ)) ∉ [(pyRound (0 : ℝ), pyRound (0 : ℝ) + 1),
      (pyRound (0 : ℝ), pyRound (0 : ℝ) - 1),
      (pyRound (0 : ℝ) + 1, pyRound (0 : ℝ)),
      (pyRound (0 : ℝ) - 1, pyRound (0 : ℝ)),
      (pyRound (0 : ℝ), pyRound (0 : ℝ))] := by
    rw [pyRound_zero]
    decide
  exact ⟨hmem,
    (create_tiny_vector_spec gC7 0 0 2 3 4).2.2.2.2.2 5 5 hmem⟩

/-! Claims C4 and C6: marker updates. -/

/-- On a 1×1 grid a marker at the origin samples exactly the window
{(0, 0)}. -/
theorem markerWindow_unit (g : Grid ℝ) (m : Marker) (hx : m.x = 0)
    (hy : m.y = 0) (hh : g.h = 1) (hw : g.w = 1) :
    markerWindow g m 5 = {((0 : ℤ), (0 : ℤ))} := by
  have hcx : pyRound m.x = 0 := by rw [hx, pyRound_zero]
  have hcy : pyRound m.y = 0 := by rw [hy, pyRound_zero]
  simp only [markerWindow, hcx, hcy, hh, hw, Nat.cast_one]
  rw [show max (0 : ℤ) (0 - 5) = 0 by decide,
    show min ((1 : ℤ) - 1) (0 + 5) = 0 by decide,
    Finset.Icc_self, Finset.singleton_product_singleton]

/-- The count == 0 / sum_mag == 0 guard of update_markers: a marker whose
window is non-empty but has zero total magnitude is kept, unmoved, and the
grid is untouched (marker_system.py lines 113-116). -/
theorem processMarker_keep_of_sumMag_zero (g : Grid ℝ) (m : Marker) (n : ℤ)
    (mf ct : ℝ) (hc : (markerWindow g m n).card ≠ 0)
    (hs : windowSumMag g m n = 0) :
    processMarker g m n mf ct = (g, some m) := by
  unfold processMarker
  rw [if_neg hc, if_pos hs]

/-- C4: a marker whose window is non-empty, has non-zero total magnitude and
mean magnitude at least clear_threshold is displaced by mean * move_factor
with mean = (sum of v·|v|) / count — divided by the cell count, not by the
sum of magnitudes — the new position is clamped into [0, dim-1] on each
axis, and the corrective radial patch is injected into the grid at that new
position (after it is computed). -/
theorem marker_update_step_formula (g : Grid ℝ) (m : Marker) (n : ℤ)
    (mf ct : ℝ)
    (hcount : (markerWindow g m n).card ≠ 0)
    (hsum : windowSumMag g m n ≠ 0)
    (hth : ct ≤ windowSumMag g m n / ((markerWindow g m n).card : ℝ)) :
    processMarker g m n mf ct
      = (createRadialPattern g
           (max 0 (min ((g.w : ℝ) - 1)
              (m.x + windowWeightedVx g m n / ((markerWindow g m n).card : ℝ) * mf)),
            max 0 (min ((g.h : ℝ) - 1)
              (m.y + windowWeightedVy g m n / ((markerWindow g m n).card : ℝ) * mf)))
           2 m.mag,
         some (Marker.mk
           (max 0 (min ((g.w : ℝ) - 1)
              (m.x + windowWeightedVx g m n / ((markerWindow g m n).card : ℝ) * mf)))
           (max 0 (min ((g.h : ℝ) - 1)
              (m.y + windowWeightedVy g m n / ((markerWindow g m n).card : ℝ) * mf)))
           m.mag)) := by
  unfold processMarker
  rw [if_neg hcount, if_neg hsum, if_neg (not_lt.2 hth)]

/-- C4 witness: the theorem applied to the 1×1 grid gC4 with the constant
vector (1, 0) and the marker mC4 at the origin. -/
theorem marker_update_step_formula_witness :
    ((markerWindow gC4 mC4 5).card ≠ 0
      ∧ windowSumMag gC4 mC4 5 ≠ 0
      ∧ (1 / 1000 : ℝ) ≤ windowSumMag gC4 mC4 5 / ((markerWindow gC4 mC4 5).card : ℝ))
    ∧ processMarker gC4 mC4 5 1 (1 / 1000)
      = (createRadialPattern gC4
           (max 0 (min ((gC4.w : ℝ) - 1)
              (mC4.x + windowWeightedVx gC4 mC4 5 / ((markerWindow gC4 mC4 5).card : ℝ) * 1)),
            max 0 (min ((gC4.h : ℝ) - 1)
              (mC4.y + windowWeightedVy gC4 mC4 5 / ((markerWindow gC4 mC4 5).card : ℝ) * 1)))
           2 mC4.mag,
         some (Marker.mk
           (max 0 (min ((gC4.w : ℝ) - 1)
              (mC4.x + windowWeightedVx gC4 mC4 5 / ((markerWindow gC4 mC4 5).card : ℝ) * 1)))
           (max 0 (min ((gC4.h : ℝ) - 1)
              (mC4.y + windowWeightedVy gC4 mC4 5 / ((markerWindow gC4 mC4 5).card : ℝ) * 1)))
           mC4.mag)) := by
  have hwin : markerWindow gC4 mC4 5 = {((0 : ℤ), (0 : ℤ))} :=
    markerWindow_unit gC4 mC4 rfl rfl rfl rfl
  have hsum : windowSumMag gC4 mC4 5 = 1 := by
    rw [windowSumMag, hwin]
    simp [cellMag, gC4]
  have hc : (markerWindow gC4 mC4 5).card ≠ 0 := by rw [hwin]; simp
  have hs : windowSumMag gC4 mC4 5 ≠ 0 := by rw [hsum]; norm_num
  have hth : (1 / 1000 : ℝ)
      ≤ windowSumMag gC4 mC4 5 / ((markerWindow gC4 mC4 5).card : ℝ) := by
    rw [hsum, hwin]
    norm_num
  exact ⟨⟨hc, hs, hth⟩,
    marker_update_step_formula gC4 mC4 5 1 (1 / 1000) hc hs hth⟩

/-- C6 counterexample: on the all-zero 1×1 grid gC6 the marker mC6 samples
avg_mag = 0, yet after one update with clear_threshold = 1/1000 it is still
present in get_markers — the sum_mag == 0 guard keeps it before the prune
test can run. -/
theorem zero_avg_mag_marker_kept_concrete :
    windowSumMag gC6 mC6 5 / ((markerWindow gC6 mC6 5).card : ℝ) = 0
    ∧ getMarkers (updateMarkers gC6 [mC6] 5 1 (1 / 1000)).2 = [mC6] := by
  have hwin : markerWindow gC6 mC6 5 = {((0 : ℤ), (0 : ℤ))} :=
    markerWindow_unit gC6 mC6 rfl rfl rfl rfl
  have hs : windowSumMag gC6 mC6 5 = 0 := by
    rw [windowSumMag, hwin]
    simp [cellMag, gC6]
  have hc : (markerWindow gC6 mC6 5).card ≠ 0 := by rw [hwin]; simp
  refine ⟨by rw [hs]; simp, ?_⟩
  rw [updateMarkers]
  simp only [updateMarkersAux,
    processMarker_keep_of_sumMag_zero gC6 mC6 5 1 (1 / 1000) hc hs,
    getMarkers, Option.toList_some, List.append_nil]

/-- C6 amended: a marker whose sampled window is non-empty but has zero
total magnitude (so avg_mag = 0 < clear_threshold) is retained unchanged by
update — the sum_mag == 0 guard keeps it before the prune test — so it is
still present after one update call with clear_threshold = 1e-3. -/
theorem zero_avg_mag_marker_retained (g : Grid ℝ) (m : Marker) (n : ℤ)
    (mf : ℝ) (hc : (markerWindow g m n).card ≠ 0)
    (hs : windowSumMag g m n = 0) :
    processMarker g m n mf (1 / 1000) = (g, some m) :=
  processMarker_keep_of_sumMag_zero g m n mf (1 / 1000) hc hs

/-- C6 amended witness: the amended theorem applied to gC6 and mC6. -/
theorem zero_avg_mag_marker_retained_witness :
    ((markerWindow gC6 mC6 5).card ≠ 0 ∧ windowSumMag gC6 mC6 5 = 0)
    ∧ processMarker gC6 mC6 5 1 (1 / 1000) = (gC6, some mC6) := by
  have hwin : markerWindow gC6 mC6 5 = {((0 : ℤ), (0 : ℤ))} :=
    markerWindow_unit gC6 mC6 rfl rfl rfl rfl
  have hs : windowSumMag gC6 mC6 5 = 0 := by
    rw [windowSumMag, hwin]
    simp [cellMag, gC6]
  have hc : (markerWindow gC6 mC6 5).card ≠ 0 := by rw [hwin]; simp
  exact ⟨⟨hc, hs⟩, zero_avg_mag_marker_retained gC6 mC6 5 1 hc hs⟩

end LiziEngine
